import Mathlib

/-!
Verification of the cnerium asynchronous-runtime core against its source.

The definitions below are a shallow embedding of the C++ sources:
  - include/vix/async/core/task.hpp       (task, promise_common, final_awaiter, task_awaiter)
  - unnamed scheduler header (part_003)   (scheduler: post / run / stop)
  - include/vix/async/core/cancel.hpp     (cancel_state, cancel_source, cancel_token)
  - include/vix/async/core/thread_pool.hpp (submit awaitable: worker job and await_resume)
  - src/core/scheduler.cpp                (asio_awaitable: await_suspend / await_resume)
  - include/vix/async/core/error.hpp      (errc taxonomy)

Coroutine handles are modelled as natural-number identities; exceptions are
modelled as an inductive identity type; machine booleans are Bool.
-/

namespace Cnerium

/-- Error kinds of `error.hpp`, a closed enumeration with stable numeric tags. -/
inductive errc where
  | ok
  | invalid_argument
  | not_ready
  | timeout
  | canceled
  | closed
  | overflow
  | stopped
  | queue_full
  | rejected
  | not_supported
  deriving DecidableEq, Repr

/-- Stable numeric tag of each `errc` value (`ok = 0`, then in declaration order). -/
def errc.tag : errc → Nat
  | .ok => 0
  | .invalid_argument => 1
  | .not_ready => 2
  | .timeout => 3
  | .canceled => 4
  | .closed => 5
  | .overflow => 6
  | .stopped => 7
  | .queue_full => 8
  | .rejected => 9
  | .not_supported => 10

/-- A thrown C++ exception: either a `std::system_error` carrying an error-code
value (`0` means no error), or an arbitrary user exception identified by a tag. -/
inductive exc where
  | sys (code : Nat)
  | user (id : Nat)
  deriving DecidableEq, Repr

/-- `cancelled_ec()` of cancel.hpp: the error-code value of `errc::canceled`. -/
def cancelled_ec : Nat := errc.tag .canceled

/-! ## Promise state (task.hpp, `detail::promise_common` / `detail::promise_value`) -/

/-- `detail::promise_common` of task.hpp: the continuation handle (a null
handle is `none`), the captured exception, and the detached flag. -/
structure promise_common where
  continuation : Option Nat
  exception : Option exc
  detached : Bool
  deriving DecidableEq, Repr

/-- `promise_common::unhandled_exception()`: capture the current exception. -/
def promise_common.unhandled_exception (p : promise_common) (e : exc) : promise_common :=
  { p with exception := some e }

/-- Outcome of `final_awaiter::await_suspend`: either execution is transferred
to a recorded continuation handle, or the frame destroys itself and a noop
coroutine is returned, or a noop coroutine is returned with the frame intact. -/
inductive final_action where
  | transfer_to (k : Nat)
  | destroy_frame
  | remain_suspended
  deriving DecidableEq, Repr

/-- `promise_common::final_awaiter::await_suspend` (task.hpp lines 107-119):
`if (p.continuation) return p.continuation; if (p.detached) h.destroy();
return std::noop_coroutine();`. -/
def final_await_suspend (p : promise_common) : final_action :=
  match p.continuation with
  | some k => .transfer_to k
  | none =>
    match p.detached with
    | true => .destroy_frame
    | false => .remain_suspended

/-- `detail::promise_value<T>` for `T ≠ void`: the common state plus the
stored `std::optional<T>` result. -/
structure promise_value (T : Type) extends promise_common where
  value : Option T

/-- `promise_value<T>::return_value(v)`: `value.emplace(forward(v))`. -/
def promise_value.return_value {T : Type} (p : promise_value T) (v : T) : promise_value T :=
  { p with value := some v }

/-- `unhandled_exception()` as inherited by `promise_value<T>` from
`promise_common`: capture the current exception into the shared state. -/
def promise_value.unhandled_exception {T : Type} (p : promise_value T) (e : exc) :
    promise_value T :=
  { p with topromise_common := p.topromise_common.unhandled_exception e }

/-! ## Task awaiter (task.hpp, `detail::task_awaiter`) -/

/-- Observable outcome of `task_awaiter::await_resume`: a rethrown exception,
a returned value, or a failed `assert(p.value.has_value())`. -/
inductive awaited_out (T : Type) where
  | rethrown (e : exc)
  | returned (v : T)
  | assert_failed
  deriving DecidableEq, Repr

/-- `task_awaiter::await_resume` for `task<T>`, `T ≠ void` (task.hpp lines
243-259): rethrow `p.exception` if set, else assert the optional holds a value
and move it out. -/
def task_awaiter_await_resume {T : Type} (p : promise_value T) : awaited_out T :=
  match p.exception with
  | some e => .rethrown e
  | none =>
    match p.value with
    | some v => .returned v
    | none => .assert_failed

/-- `task_awaiter::await_resume` for `task<void>`: rethrow if `p.exception`
is set, else return. -/
def task_awaiter_await_resume_void (p : promise_common) : awaited_out Unit :=
  match p.exception with
  | some e => .rethrown e
  | none => .returned ()

/-! ## Scheduler (unnamed scheduler header, `cnerium::core::scheduler`) -/

/-- State of the single-threaded scheduler: the FIFO job queue (jobs are
identified by opaque naturals), the stop flag and the running flag.  The mutex
and condition variable serialize the operations below; the trace order of
`sched_trace` models the order in which the lock was acquired. -/
structure sched_state where
  q : List Nat
  stop_requested : Bool
  running : Bool
  deriving DecidableEq, Repr

/-- `scheduler::post(Fn)` (lines 29-37): enqueue at the tail, then notify. -/
def scheduler.post (s : sched_state) (j : Nat) : sched_state :=
  { s with q := s.q ++ [j] }

/-- `scheduler::stop()` (lines 84-91): set `stop_requested_` under the lock,
then notify all.  Nothing else is touched. -/
def scheduler.stop (s : sched_state) : sched_state :=
  { s with stop_requested := true }

/-- Outcome of one iteration of the `while (true)` loop in `scheduler::run`:
pop-and-execute a job, leave the loop, or block on the condition variable. -/
inductive loop_outcome where
  | dispatch (j : Nat) (s' : sched_state)
  | finish (s' : sched_state)
  | blocked
  deriving DecidableEq, Repr

/-- One iteration of `scheduler::run` (lines 49-81): wait until
`stop_requested_ || !q_.empty()`; then if the queue is non-empty pop the front
job (executed outside the lock), else (stop requested) break out of the loop
and set `running_ = false`. -/
def scheduler.run_iter (s : sched_state) : loop_outcome :=
  match s.stop_requested, s.q with
  | false, [] => .blocked
  | _, j :: rest => .dispatch j { s with q := rest }
  | true, [] => .finish { s with running := false }

/-- Events observable at the scheduler's lock: a post completed, a stop
request completed, `run` popped and executed a job, `run` exited its loop. -/
inductive sched_ev where
  | posted (j : Nat)
  | stop_req
  | executed (j : Nat)
  | exited
  deriving DecidableEq, Repr

/-- One serialized step of the scheduler: a client post, a client stop, or one
`run`-loop iteration (dispatch or loop exit; a blocked iteration is no step). -/
inductive sched_step : sched_state → sched_ev → sched_state → Prop where
  | post (s : sched_state) (j : Nat) : sched_step s (.posted j) (scheduler.post s j)
  | stop (s : sched_state) : sched_step s .stop_req (scheduler.stop s)
  | dispatch (s s' : sched_state) (j : Nat)
      (h : scheduler.run_iter s = .dispatch j s') : sched_step s (.executed j) s'
  | exits (s s' : sched_state)
      (h : scheduler.run_iter s = .finish s') : sched_step s .exited s'

/-- A sequence of serialized scheduler steps. -/
inductive sched_trace : sched_state → List sched_ev → sched_state → Prop where
  | nil (s : sched_state) : sched_trace s [] s
  | cons {s s' s'' : sched_state} {e : sched_ev} {t : List sched_ev}
      (h1 : sched_step s e s') (h2 : sched_trace s' t s'') :
      sched_trace s (e :: t) s''

/-- Jobs posted in a trace, in lock order. -/
def posts : List sched_ev → List Nat
  | [] => []
  | .posted j :: t => j :: posts t
  | .stop_req :: t => posts t
  | .executed _ :: t => posts t
  | .exited :: t => posts t

/-- Jobs popped and executed by `run` in a trace, in dispatch order. -/
def execs : List sched_ev → List Nat
  | [] => []
  | .posted _ :: t => execs t
  | .stop_req :: t => execs t
  | .executed j :: t => j :: execs t
  | .exited :: t => execs t

/-- Inversion of a dispatching `run` iteration: the popped job was the head of
the queue and only the queue shrank. -/
lemma run_iter_dispatch_inv {s s' : sched_state} {j : Nat}
    (h : scheduler.run_iter s = .dispatch j s') :
    s.q = j :: s'.q ∧ s'.stop_requested = s.stop_requested ∧ s'.running = s.running := by
  rcases hb : s.stop_requested <;> rcases hq : s.q with _ | ⟨a, rest⟩ <;>
    simp [scheduler.run_iter, hb, hq] at h <;>
    rcases h with ⟨rfl, rfl⟩ <;> simp [hq, hb]

/-- Inversion of a loop exit: `run` leaves its loop only when the queue is
empty and stop was requested, and it only clears the running flag. -/
lemma run_iter_finish_inv {s s' : sched_state}
    (h : scheduler.run_iter s = .finish s') :
    s.q = [] ∧ s.stop_requested = true ∧ s' = { s with running := false } := by
  rcases hb : s.stop_requested <;> rcases hq : s.q with _ | ⟨a, rest⟩ <;>
    simp [scheduler.run_iter, hb, hq] at h
  exact ⟨rfl, rfl, h.symm⟩

/-- Queue/trace invariant: the executed jobs followed by the current queue are
exactly the initial queue followed by the posted jobs, in order. -/
lemma trace_exec_post {s0 s : sched_state} {t : List sched_ev}
    (h : sched_trace s0 t s) : execs t ++ s.q = s0.q ++ posts t := by
  induction h with
  | nil s => simp [execs, posts]
  | cons h1 h2 ih =>
    cases h1 with
    | post j =>
      simp only [execs, posts]
      rw [ih]
      simp [scheduler.post]
    | stop =>
      simp only [execs, posts]
      rw [ih]
      simp [scheduler.stop]
    | dispatch s' j hd =>
      obtain ⟨hq, _, _⟩ := run_iter_dispatch_inv hd
      simp only [execs, posts, hq, List.cons_append]
      rw [ih]
    | exits s' he =>
      obtain ⟨hq, hst, hs⟩ := run_iter_finish_inv he
      subst hs
      simpa [execs, posts] using ih

/-- A step labeled `exited` can only come from a finishing `run` iteration. -/
lemma sched_step_exited_inv {s s' : sched_state} (h : sched_step s .exited s') :
    scheduler.run_iter s = .finish s' := by
  cases h
  assumption

/-- A trace splits at any point into two chained traces. -/
lemma sched_trace_append {s0 s : sched_state} {t1 t2 : List sched_ev}
    (h : sched_trace s0 (t1 ++ t2) s) :
    ∃ s1, sched_trace s0 t1 s1 ∧ sched_trace s1 t2 s := by
  induction t1 generalizing s0 with
  | nil => exact ⟨s0, .nil s0, h⟩
  | cons e t1 ih =>
    cases h with
    | cons h1 h2 =>
      obtain ⟨s1, ha, hb⟩ := ih h2
      exact ⟨s1, .cons h1 ha, hb⟩

end Cnerium

namespace Cnerium

/-! ## Task ownership (task.hpp, `task<T>` / `task<void>`) -/

/-- The runtime world seen by a task object: which coroutine frames are
currently allocated, each frame's promise state, and the handles posted onto
the scheduler. -/
structure world where
  alive : List Nat
  promiseOf : Nat → promise_common
  sched_q : List Nat

/-- A `task<T>` object: just its owned coroutine handle `h_` (a null handle
is `none`). -/
structure task_obj where
  h_ : Option Nat
  deriving DecidableEq, Repr

/-- `task<T>::valid()`: whether a handle is held. -/
def task_obj.valid (t : task_obj) : Bool := t.h_.isSome

/-- `task<T>::destroy()` (private helper used by the destructor and by move
assignment): `if (h_) { h_.destroy(); h_ = {}; }`. -/
def task_obj.destroy (t : task_obj) (w : world) : task_obj × world :=
  match t.h_ with
  | none => (t, w)
  | some h => (⟨none⟩, { w with alive := w.alive.erase h })

/-- `task<T>::start(scheduler&) &&` (task.hpp lines 376-384 and 502-510):
`if (!h_) return; h_.promise().detached = true; sched.post(h_); h_ = {};`. -/
def task_obj.start (t : task_obj) (w : world) : task_obj × world :=
  match t.h_ with
  | none => (t, w)
  | some h =>
    (⟨none⟩,
     { w with
        promiseOf := fun x =>
          if x = h then { w.promiseOf h with detached := true } else w.promiseOf x,
        sched_q := w.sched_q ++ [h] })

/-- `task<T>::operator=(task&&)` with distinct source and target objects
(task.hpp lines 313-322 and 442-451, the `this != &other` branch): first
`destroy()` the currently owned frame, then steal the source handle and null
the source.  Returns (new target, new source, new world). -/
def task_obj.move_assign (a b : task_obj) (w : world) : task_obj × task_obj × world :=
  let d := a.destroy w
  (⟨b.h_⟩, ⟨none⟩, d.2)

/-- `task<T>::operator=(task&&)` applied to itself: the `this != &other`
guard skips the whole body, so nothing changes. -/
def task_obj.move_assign_self (a : task_obj) (w : world) : task_obj × world :=
  (a, w)

/-- A concrete world used by witnesses: frames 1, 2 and 3 are alive, all
promises are fresh, nothing is queued. -/
def sample_world : world :=
  ⟨[1, 2, 3], fun _ => ⟨none, none, false⟩, []⟩

/-! ## Cancellation (cancel.hpp) -/

/-- All shared cancellation records: `flag i` is the atomic boolean of the
`cancel_state` with identity `i`.  The release/acquire pair on this single
atomic makes the writes and reads on one state totally ordered; the operation
lists below model that order. -/
structure cancel_world where
  flag : Nat → Bool

/-- `cancel_state::request_cancel()`: `cancelled_.store(true, release)`. -/
def cancel_state.request_cancel (w : cancel_world) (i : Nat) : cancel_world :=
  ⟨fun x => if x = i then true else w.flag x⟩

/-- `cancel_state::is_cancelled()`: `cancelled_.load(acquire)`. -/
def cancel_state.is_cancelled (w : cancel_world) (i : Nat) : Bool := w.flag i

/-- `cancel_token`: empty, or a shared view of one cancellation state. -/
structure cancel_token where
  st : Option Nat
  deriving DecidableEq, Repr

/-- `cancel_token::can_cancel()`. -/
def cancel_token.can_cancel (t : cancel_token) : Bool := t.st.isSome

/-- `cancel_token::is_cancelled()`: false when empty, else read the state. -/
def cancel_token.is_cancelled (t : cancel_token) (w : cancel_world) : Bool :=
  match t.st with
  | none => false
  | some i => cancel_state.is_cancelled w i

/-- `cancel_source`: owner of one shared state (`st` is null only for a
moved-from source; the constructor always allocates). -/
structure cancel_source where
  st : Option Nat
  deriving DecidableEq, Repr

/-- `cancel_source::cancel_source()`: allocate a fresh state whose flag starts
false.  `i` is the fresh identity: it is a new allocation, so it aliases no
live state. -/
def cancel_source.mk_fresh (i : Nat) (w : cancel_world) : cancel_source × cancel_world :=
  (⟨some i⟩, ⟨fun x => if x = i then false else w.flag x⟩)

/-- `cancel_source::token()`: share the state. -/
def cancel_source.token (s : cancel_source) : cancel_token := ⟨s.st⟩

/-- `cancel_source::request_cancel()`: `if (st_) st_->request_cancel()`. -/
def cancel_source.request_cancel (s : cancel_source) (w : cancel_world) : cancel_world :=
  match s.st with
  | none => w
  | some i => cancel_state.request_cancel w i

/-- `cancel_source::is_cancelled()`: `st_ ? st_->is_cancelled() : false`. -/
def cancel_source.is_cancelled (s : cancel_source) (w : cancel_world) : Bool :=
  match s.st with
  | none => false
  | some i => cancel_state.is_cancelled w i

/-- The operations of cancel.hpp that write to a live shared state: only
cancellation requests.  Reads and token copies do not write, and constructing
a `cancel_source` allocates a fresh state rather than touching a live one. -/
inductive cancel_op where
  | request_src (s : cancel_source)
  | request_state (i : Nat)

/-- Apply one writing operation. -/
def cancel_apply (w : cancel_world) : cancel_op → cancel_world
  | .request_src s => s.request_cancel w
  | .request_state i => cancel_state.request_cancel w i

/-- Apply a sequence of writing operations. -/
def cancel_apply_ops (w : cancel_world) : List cancel_op → cancel_world
  | [] => w
  | op :: t => cancel_apply_ops (cancel_apply w op) t

/-- `cancel_state::request_cancel` never lowers any flag. -/
lemma cancel_state_request_monotone (w : cancel_world) (i0 i : Nat)
    (h : w.flag i = true) : (cancel_state.request_cancel w i0).flag i = true := by
  by_cases hi : i = i0 <;> simp [cancel_state.request_cancel, hi, h]

/-- No writing operation lowers any flag. -/
lemma cancel_apply_monotone (w : cancel_world) (op : cancel_op) (i : Nat)
    (h : w.flag i = true) : (cancel_apply w op).flag i = true := by
  cases op with
  | request_src s =>
    cases hs : s.st with
    | none => simpa [cancel_apply, cancel_source.request_cancel, hs] using h
    | some i0 =>
      simp only [cancel_apply, cancel_source.request_cancel, hs]
      exact cancel_state_request_monotone w i0 i h
  | request_state i0 => exact cancel_state_request_monotone w i0 i h

/-- No sequence of writing operations lowers any flag. -/
lemma cancel_apply_ops_monotone (ops : List cancel_op) (w : cancel_world) (i : Nat)
    (h : w.flag i = true) : (cancel_apply_ops w ops).flag i = true := by
  induction ops generalizing w with
  | nil => exact h
  | cons op t ih => exact ih (cancel_apply w op) (cancel_apply_monotone w op i h)

/-! ## Thread-pool submit (thread_pool.hpp) -/

/-- The worker-side job body built by `thread_pool::submit`'s awaitable
(thread_pool.hpp lines 205-231): inside a try block, if the token is already
cancelled, throw `std::system_error(cancelled_ec())`; else call the closure
and store its result; any throw is caught into `ex`.  `fn` is the behaviour of
the closure when invoked (returned value or thrown exception); it is consulted
only in the non-cancelled branch.  Returns the `(ex, store)` pair. -/
def pool_worker_job {R : Type} (ct_cancelled : Bool) (fn : Except exc R) :
    Option exc × Option R :=
  match ct_cancelled with
  | true => (some (.sys cancelled_ec), none)
  | false =>
    match fn with
    | .ok v => (none, some v)
    | .error e => (some e, none)

/-- Observable outcome of the pool awaitable's `await_resume`. -/
inductive pool_out (R : Type) where
  | rethrown (e : exc)
  | returned (v : R)
  | invalid_take
  deriving DecidableEq, Repr

/-- `awaitable::await_resume` (thread_pool.hpp lines 241-254): rethrow `ex`
if set, else `store.take()` (moving `*value` out; `invalid_take` marks the
unreachable empty-store case). -/
def pool_await_resume {R : Type} (ex : Option exc) (store : Option R) : pool_out R :=
  match ex with
  | some e => .rethrown e
  | none =>
    match store with
    | some v => .returned v
    | none => .invalid_take

/-! ## Network-operation awaitable (src/core/scheduler.cpp, asio_awaitable) -/

/-- `asio_result<T>`: the reactor-reported error-code value (0 is ok) and the
optional completion value. -/
structure asio_result (T : Type) where
  ec : Nat
  value : Option T

/-- The completion callback installed by `asio_awaitable::await_suspend`
(scheduler.cpp lines 80-89): store the error code, store the value only when
the code is ok (then the handle is posted back to the loop). -/
def asio_on_complete {T : Type} (ec : Nat) (v : T) : asio_result T :=
  ⟨ec, if ec = 0 then some v else none⟩

/-- Observable outcome of `asio_awaitable::await_resume`. -/
inductive asio_out (T : Type) where
  | thrown (e : exc)
  | returned (v : T)
  | invalid_deref
  deriving DecidableEq, Repr

/-- `asio_awaitable::await_resume` for non-void `T` (scheduler.cpp lines
99-118), in source order: if the token reports cancellation, throw
`system_error(cancelled_ec())`; else if an exception was captured at start,
rethrow it; else if the reactor reported a non-ok code, throw
`system_error(ec)`; else move the stored value out. -/
def asio_await_resume {T : Type} (ct_cancelled : Bool) (ex : Option exc)
    (res : asio_result T) : asio_out T :=
  match ct_cancelled with
  | true => .thrown (.sys cancelled_ec)
  | false =>
    match ex with
    | some e => .thrown e
    | none =>
      match res.ec with
      | 0 =>
        match res.value with
        | some v => .returned v
        | none => .invalid_deref
      | _ => .thrown (.sys res.ec)

/-- `asio_awaitable::await_resume` for `T = void`: same priority order with a
plain return in place of the value move. -/
def asio_await_resume_void (ct_cancelled : Bool) (ex : Option exc) (ec : Nat) :
    asio_out Unit :=
  match ct_cancelled with
  | true => .thrown (.sys cancelled_ec)
  | false =>
    match ex with
    | some e => .thrown e
    | none =>
      match ec with
      | 0 => .returned ()
      | _ => .thrown (.sys ec)

/-! ## Cross-thread resumption -/

/-- Thread identities of the runtime: the loop thread (the caller of
`run()`), a pool worker, the signal capture thread, the reactor's net
thread. -/
inductive tid where
  | loop
  | pool_worker
  | signal_capture
  | net_io
  deriving DecidableEq, Repr

/-- An effect a completion body may perform on a suspended handle: post it to
the loop scheduler (the job built by `scheduler::post(coroutine_handle)`,
which resumes the handle when the loop executes it), or resume it inline on
the current thread. -/
inductive hand_effect where
  | post_handle (h : Nat)
  | resume_inline (h : Nat)
  deriving DecidableEq, Repr

/-- Tail of the worker-side job of `thread_pool::submit` (thread_pool.hpp
line 230): `pool->ctx_post(h)`.  Modelled from the spec: the body of
`thread_pool::ctx_post` lives in thread_pool.cpp, which is not under src; per
the spec, the worker "posts the awaiter's handle back to the runtime
context's scheduler" (io_context.hpp forwards `post` to the scheduler). -/
def pool_completion_effects (h : Nat) : List hand_effect := [.post_handle h]

/-- Completion callback of `asio_awaitable::await_suspend` (scheduler.cpp
lines 80-89), invoked by the reactor on the net thread: after storing the
result, `ctx->post([h]{ if (h) h.resume(); })`. -/
def asio_completion_effects (h : Nat) : List hand_effect := [.post_handle h]

/-- Cancellation and exception paths of `asio_awaitable::await_suspend`
(scheduler.cpp lines 71-76 and 91-96), run on the awaiting thread:
`ctx->post(...)`. -/
def asio_suspend_fallback_effects (h : Nat) : List hand_effect := [.post_handle h]

/-- Modelled from the spec: the signal bridge's delivery code (signal.cpp is
not under src); per the spec, its "completions are always delivered by
posting onto the loop scheduler". -/
def signal_delivery_effects (h : Nat) : List hand_effect := [.post_handle h]

/-- Thread-tagged runtime events: a handle resumed on a thread, or a handle's
resume job enqueued by a thread. -/
inductive sys_ev where
  | resumed (h : Nat) (t : tid)
  | enqueued (h : Nat) (t : tid)
  deriving DecidableEq, Repr

/-- Run one effect on thread `t` against the loop queue. -/
def run_hand_effect (q : List Nat) (t : tid) : hand_effect → List Nat × sys_ev
  | .post_handle h => (q ++ [h], .enqueued h t)
  | .resume_inline h => (q, .resumed h t)

/-- Interleaved steps of the runtime: the loop thread (inside `run()`)
executes the front posted resume job on itself; a pool worker, the net
thread, or the signal capture thread performs one effect of its completion
body. -/
inductive sys_step : List Nat → sys_ev → List Nat → Prop where
  | loop_dispatch (h : Nat) (rest : List Nat) :
      sys_step (h :: rest) (.resumed h .loop) rest
  | pool_complete (q : List Nat) (h : Nat) (e : hand_effect)
      (he : e ∈ pool_completion_effects h) :
      sys_step q (run_hand_effect q .pool_worker e).2 (run_hand_effect q .pool_worker e).1
  | net_complete (q : List Nat) (h : Nat) (e : hand_effect)
      (he : e ∈ asio_completion_effects h) :
      sys_step q (run_hand_effect q .net_io e).2 (run_hand_effect q .net_io e).1
  | net_fallback (q : List Nat) (h : Nat) (e : hand_effect)
      (he : e ∈ asio_suspend_fallback_effects h) :
      sys_step q (run_hand_effect q .loop e).2 (run_hand_effect q .loop e).1
  | signal_deliver (q : List Nat) (h : Nat) (e : hand_effect)
      (he : e ∈ signal_delivery_effects h) :
      sys_step q (run_hand_effect q .signal_capture e).2 (run_hand_effect q .signal_capture e).1

/-- A sequence of interleaved runtime steps. -/
inductive sys_trace : List Nat → List sys_ev → List Nat → Prop where
  | nil (q : List Nat) : sys_trace q [] q
  | cons {q q' q'' : List Nat} {e : sys_ev} {t : List sys_ev}
      (h1 : sys_step q e q') (h2 : sys_trace q' t q'') : sys_trace q (e :: t) q''

/-- C1. For every task coroutine that finishes its body, the final-suspension
step selects exactly: (a) a recorded continuation is transferred to; (b) else a
detached frame destroys itself; (c) else the frame remains suspended. -/
theorem final_suspension_selects (p : promise_common) :
    (∀ k : Nat, p.continuation = some k → final_await_suspend p = .transfer_to k)
    ∧ (p.continuation = none → p.detached = true →
        final_await_suspend p = .destroy_frame)
    ∧ (p.continuation = none → p.detached = false →
        final_await_suspend p = .remain_suspended) := by
  refine ⟨?_, ?_, ?_⟩
  · intro k hk
    simp [final_await_suspend, hk]
  · intro hc hd
    simp [final_await_suspend, hc, hd]
  · intro hc hd
    simp [final_await_suspend, hc, hd]

/-- Witness for C1 at concrete promises: a continuation handle `7` wins over
the detached flag; with no continuation the detached flag decides. -/
theorem final_suspension_selects_witness :
    final_await_suspend ⟨some 7, none, true⟩ = .transfer_to 7
    ∧ final_await_suspend ⟨none, none, true⟩ = .destroy_frame
    ∧ final_await_suspend ⟨none, none, false⟩ = .remain_suspended :=
  ⟨(final_suspension_selects ⟨some 7, none, true⟩).1 7 rfl,
   (final_suspension_selects ⟨none, none, true⟩).2.1 rfl rfl,
   (final_suspension_selects ⟨none, none, false⟩).2.2 rfl rfl⟩

/-- C2. Awaiting a task whose coroutine exited with an uncaught failure F
rethrows exactly F at the await site (for T and for void); otherwise, for
T ≠ void, await_resume returns exactly the value stored by return_value. -/
theorem await_resume_rethrow_or_value :
    (∀ (T : Type) (p : promise_value T) (e : exc),
        p.exception = some e → task_awaiter_await_resume p = .rethrown e)
    ∧ (∀ (p : promise_common) (e : exc),
        p.exception = some e → task_awaiter_await_resume_void p = .rethrown e)
    ∧ (∀ (T : Type) (p : promise_value T) (v : T),
        p.exception = none →
        task_awaiter_await_resume (p.return_value v) = .returned v)
    ∧ (∀ (T : Type) (p : promise_value T) (e : exc),
        task_awaiter_await_resume (p.unhandled_exception e) = .rethrown e) := by
  refine ⟨?_, ?_, ?_, ?_⟩
  · intro T p e he
    simp [task_awaiter_await_resume, he]
  · intro p e he
    simp [task_awaiter_await_resume_void, he]
  · intro T p v he
    simp [task_awaiter_await_resume, promise_value.return_value, he]
  · intro T p e
    simp [task_awaiter_await_resume, promise_value.unhandled_exception,
      promise_common.unhandled_exception]

/-- Witness for C2 at concrete promises: an exception `user 3` is rethrown,
and with no exception the stored value `41` is returned. -/
theorem await_resume_rethrow_or_value_witness :
    task_awaiter_await_resume (⟨⟨none, some (exc.user 3), false⟩, some 5⟩ : promise_value Nat)
      = .rethrown (exc.user 3)
    ∧ task_awaiter_await_resume_void ⟨none, some (exc.user 3), false⟩
      = .rethrown (exc.user 3)
    ∧ task_awaiter_await_resume
        ((⟨⟨none, none, false⟩, none⟩ : promise_value Nat).return_value 41)
      = .returned 41 :=
  ⟨await_resume_rethrow_or_value.1 Nat ⟨⟨none, some (exc.user 3), false⟩, some 5⟩
      (exc.user 3) rfl,
   await_resume_rethrow_or_value.2.1 ⟨none, some (exc.user 3), false⟩ (exc.user 3) rfl,
   await_resume_rethrow_or_value.2.2.1 Nat ⟨⟨none, none, false⟩, none⟩ 41 rfl⟩

/-- C4. FIFO dispatch: starting from an idle scheduler, if the post of job A
completed before the post of job B in lock order, then the `run()` loop
dequeues and executes A before B. -/
theorem scheduler_fifo_dispatch
    (t : List sched_ev) (s : sched_state)
    (h : sched_trace ⟨[], false, false⟩ t s)
    (hnd : (posts t).Nodup)
    (A B i j : Nat) (hij : i < j)
    (hA : (posts t)[i]? = some A) (hB : (posts t)[j]? = some B)
    (hBex : B ∈ execs t) :
    ∃ ia ib : Nat, ia < ib ∧ (execs t)[ia]? = some A ∧ (execs t)[ib]? = some B := by
  have hinv : execs t ++ s.q = posts t := by simpa using trace_exec_post h
  obtain ⟨ib, hbl, hbe⟩ := List.getElem_of_mem hBex
  have hbe2 : (execs t)[ib]? = some B := by
    rw [List.getElem?_eq_some]
    exact ⟨hbl, hbe⟩
  have hpb : (posts t)[ib]? = some B := by
    rw [← hinv, List.getElem?_append]
    simpa [hbl] using hbe2
  have hblen : ib < (posts t).length := (List.getElem?_eq_some.mp hpb).1
  have hbj : ib = j := List.getElem?_inj hblen hnd (by rw [hpb, hB])
  have hjlen : j < (execs t).length := hbj ▸ hbl
  have hilen : i < (execs t).length := lt_trans hij hjlen
  have hae : (execs t)[i]? = some A := by
    have hsw : (posts t)[i]? = (execs t)[i]? := by
      rw [← hinv, List.getElem?_append]
      simp [hilen]
    rw [← hsw, hA]
  exact ⟨i, j, hij, hae, hbj ▸ hbe2⟩

/-- Witness for C4: posting jobs 1 then 2 and letting `run` dispatch both
yields them executed in post order. -/
theorem scheduler_fifo_dispatch_witness :
    ∃ ia ib : Nat, ia < ib
      ∧ (execs [.posted 1, .posted 2, .executed 1, .executed 2])[ia]? = some 1
      ∧ (execs [.posted 1, .posted 2, .executed 1, .executed 2])[ib]? = some 2 := by
  have htr : sched_trace ⟨[], false, false⟩
      [.posted 1, .posted 2, .executed 1, .executed 2] ⟨[], false, false⟩ :=
    .cons (.post _ 1) (.cons (.post _ 2)
      (.cons (.dispatch _ ⟨[2], false, false⟩ 1 rfl)
        (.cons (.dispatch _ ⟨[], false, false⟩ 2 rfl) (.nil _))))
  exact scheduler_fifo_dispatch _ _ htr (by decide) 1 2 0 1 (by decide)
    (by decide) (by decide) (by decide)

/-- C5. `stop()` only sets the stop flag (the queue is untouched, no job is
dropped); the `run()` loop exits only upon observing `stop_requested` together
with an empty queue; and in any execution that ends with the loop exiting,
every job that was in the queue (initially or posted later) was dequeued and
executed. -/
theorem stop_sets_flag_and_run_drains :
    (∀ s : sched_state, (scheduler.stop s).q = s.q
        ∧ (scheduler.stop s).stop_requested = true
        ∧ (scheduler.stop s).running = s.running)
    ∧ (∀ (s s' : sched_state), scheduler.run_iter s = .finish s' →
        s.q = [] ∧ s.stop_requested = true)
    ∧ (∀ (s0 s : sched_state) (t : List sched_ev),
        sched_trace s0 (t ++ [.exited]) s →
        execs (t ++ [.exited]) = s0.q ++ posts (t ++ [.exited])) := by
  refine ⟨?_, ?_, ?_⟩
  · intro s
    exact ⟨rfl, rfl, rfl⟩
  · intro s s' h
    obtain ⟨h1, h2, _⟩ := run_iter_finish_inv h
    exact ⟨h1, h2⟩
  · intro s0 s t h
    obtain ⟨s1, h1, h2⟩ := sched_trace_append h
    have hq : s.q = [] := by
      cases h2 with
      | cons hstep htail =>
        cases htail
        obtain ⟨hq1, _, hs⟩ := run_iter_finish_inv (sched_step_exited_inv hstep)
        rw [hs]
        simpa using hq1
    have hfull := trace_exec_post h
    rw [hq] at hfull
    simpa using hfull

/-- Witness for C5: with job 5 in the queue when stop is requested, the loop
still executes job 5 and only then exits. -/
theorem stop_sets_flag_and_run_drains_witness :
    execs ([.posted 5, .stop_req, .executed 5] ++ [.exited])
      = (⟨[], false, false⟩ : sched_state).q
        ++ posts ([.posted 5, .stop_req, .executed 5] ++ [.exited]) := by
  have htr : sched_trace ⟨[], false, false⟩
      ([.posted 5, .stop_req, .executed 5] ++ [.exited]) ⟨[], true, false⟩ :=
    .cons (.post _ 5) (.cons (.stop _)
      (.cons (.dispatch _ ⟨[], true, false⟩ 5 rfl)
        (.cons (.exits _ ⟨[], true, false⟩ rfl) (.nil _))))
  exact stop_sets_flag_and_run_drains.2.2 ⟨[], false, false⟩ _ _ htr

/-- C3. In every interleaving of the runtime's threads, a suspended coroutine
handle is resumed only on the loop thread (the caller of `run()`), never on a
pool worker, the signal capture thread, or the net thread; and every
producer's completion body finishes by posting the handle back onto the
scheduler rather than resuming it. -/
theorem resumption_on_loop_thread_only :
    (∀ (q0 : List Nat) (t : List sys_ev) (q : List Nat), sys_trace q0 t q →
        ∀ (h : Nat) (who : tid), sys_ev.resumed h who ∈ t → who = .loop)
    ∧ (∀ h : Nat,
        pool_completion_effects h = [.post_handle h]
        ∧ asio_completion_effects h = [.post_handle h]
        ∧ asio_suspend_fallback_effects h = [.post_handle h]
        ∧ signal_delivery_effects h = [.post_handle h]) := by
  constructor
  · intro q0 t q htr
    induction htr with
    | nil =>
      intro h who hmem
      simp at hmem
    | cons h1 h2 ih =>
      intro h who hmem
      rcases List.mem_cons.mp hmem with heq | hmem2
      · cases h1 with
        | loop_dispatch h0 rest =>
          injection heq with e1 e2
        | pool_complete q h0 e he =>
          simp only [pool_completion_effects, List.mem_singleton] at he
          subst he
          simp [run_hand_effect] at heq
        | net_complete q h0 e he =>
          simp only [asio_completion_effects, List.mem_singleton] at he
          subst he
          simp [run_hand_effect] at heq
        | net_fallback q h0 e he =>
          simp only [asio_suspend_fallback_effects, List.mem_singleton] at he
          subst he
          simp [run_hand_effect] at heq
        | signal_deliver q h0 e he =>
          simp only [signal_delivery_effects, List.mem_singleton] at he
          subst he
          simp [run_hand_effect] at heq
      · exact ih h who hmem2
  · intro h
    exact ⟨rfl, rfl, rfl, rfl⟩

/-- Witness for C3: a pool worker completes by enqueuing handle 9; the loop
then resumes it, and the resumption in that trace is on the loop thread. -/
theorem resumption_on_loop_thread_only_witness :
    tid.loop = tid.loop ∧ pool_completion_effects 9 = [hand_effect.post_handle 9] :=
  ⟨resumption_on_loop_thread_only.1 [] [.enqueued 9 .pool_worker, .resumed 9 .loop] []
      (sys_trace.cons
        (sys_step.pool_complete [] 9 (.post_handle 9) (List.mem_singleton.mpr rfl))
        (sys_trace.cons (sys_step.loop_dispatch 9 []) (sys_trace.nil [])))
      9 tid.loop (by simp),
   (resumption_on_loop_thread_only.2 9).1⟩

/-- C6. Starting a valid task on a scheduler sets the promise's detached
flag, posts the handle to that scheduler, and empties the task value; the
subsequent task destructor destroys no frame; with no continuation recorded,
the detached frame's final suspension destroys the frame itself. -/
theorem start_detaches_posts_releases (t : task_obj) (w : world) (h : Nat)
    (hv : t.h_ = some h) :
    ((t.start w).2.promiseOf h).detached = true
    ∧ (t.start w).2.sched_q = w.sched_q ++ [h]
    ∧ (t.start w).1.valid = false
    ∧ (t.start w).2.alive = w.alive
    ∧ ((t.start w).1.destroy (t.start w).2).2.alive = (t.start w).2.alive
    ∧ (((t.start w).2.promiseOf h).continuation = none →
        final_await_suspend ((t.start w).2.promiseOf h) = .destroy_frame) := by
  refine ⟨?_, ?_, ?_, ?_, ?_, ?_⟩ <;>
    simp [task_obj.start, hv, task_obj.valid, task_obj.destroy]
  intro hc
  simp [final_await_suspend, hc]

/-- Witness for C6: starting the task owning frame 3 in a concrete world. -/
theorem start_detaches_posts_releases_witness :
    ((task_obj.start ⟨some 3⟩ sample_world).2.promiseOf 3).detached = true
    ∧ (task_obj.start ⟨some 3⟩ sample_world).1.valid = false
    ∧ ((task_obj.start ⟨some 3⟩ sample_world).1.destroy
        (task_obj.start ⟨some 3⟩ sample_world).2).2.alive
      = (task_obj.start ⟨some 3⟩ sample_world).2.alive :=
  ⟨(start_detaches_posts_releases ⟨some 3⟩ sample_world 3 rfl).1,
   (start_detaches_posts_releases ⟨some 3⟩ sample_world 3 rfl).2.2.1,
   (start_detaches_posts_releases ⟨some 3⟩ sample_world 3 rfl).2.2.2.2.1⟩

/-- C7. The shared cancellation flag is monotonic: a fresh source and its
tokens report false; once `request_cancel` returns, every later observation
through the source or any token sharing its state reports true, whatever
further operations run; and no operation resets a set flag. -/
theorem cancel_flag_monotonic :
    (∀ (i : Nat) (w : cancel_world),
        (cancel_source.mk_fresh i w).1.is_cancelled (cancel_source.mk_fresh i w).2 = false
        ∧ ((cancel_source.mk_fresh i w).1.token).is_cancelled
            (cancel_source.mk_fresh i w).2 = false)
    ∧ (∀ (s : cancel_source) (i : Nat), s.st = some i →
        ∀ (w : cancel_world) (ops : List cancel_op),
          s.is_cancelled (cancel_apply_ops (s.request_cancel w) ops) = true
          ∧ ∀ t : cancel_token, t.st = some i →
              t.is_cancelled (cancel_apply_ops (s.request_cancel w) ops) = true)
    ∧ (∀ (w : cancel_world) (op : cancel_op) (i : Nat),
        w.flag i = true → (cancel_apply w op).flag i = true) := by
  refine ⟨?_, ?_, ?_⟩
  · intro i w
    constructor <;>
      simp [cancel_source.mk_fresh, cancel_source.is_cancelled, cancel_source.token,
        cancel_token.is_cancelled, cancel_state.is_cancelled]
  · intro s i hs w ops
    have hflag : (s.request_cancel w).flag i = true := by
      simp [cancel_source.request_cancel, hs, cancel_state.request_cancel]
    have hkeep := cancel_apply_ops_monotone ops (s.request_cancel w) i hflag
    constructor
    · simp [cancel_source.is_cancelled, hs, cancel_state.is_cancelled, hkeep]
    · intro t ht
      simp [cancel_token.is_cancelled, ht, cancel_state.is_cancelled, hkeep]
  · intro w op i h
    exact cancel_apply_monotone w op i h

/-- Witness for C7: source 0 over an all-false world; after `request_cancel`
both the source and a sharing token read true. -/
theorem cancel_flag_monotonic_witness :
    cancel_source.is_cancelled ⟨some 0⟩
      (cancel_apply_ops (cancel_source.request_cancel ⟨some 0⟩ ⟨fun _ => false⟩) []) = true
    ∧ cancel_token.is_cancelled ⟨some 0⟩
      (cancel_apply_ops (cancel_source.request_cancel ⟨some 0⟩ ⟨fun _ => false⟩) []) = true :=
  ⟨(cancel_flag_monotonic.2.1 ⟨some 0⟩ 0 rfl ⟨fun _ => false⟩ []).1,
   (cancel_flag_monotonic.2.1 ⟨some 0⟩ 0 rfl ⟨fun _ => false⟩ []).2 ⟨some 0⟩ rfl⟩

/-- C8. The pool worker job for an awaited submit: when the token is already
cancelled the closure is never consulted and a canceled-kind failure is
stored; otherwise the closure's returned value is stored or its thrown
failure is captured; and the awaiter's resume rethrows the captured failure
or returns the stored value. -/
theorem pool_submit_cancel_else_capture :
    (∀ (R : Type) (f g : Except exc R), pool_worker_job true f = pool_worker_job true g)
    ∧ (∀ (R : Type) (f : Except exc R),
        pool_worker_job true f = (some (exc.sys cancelled_ec), none))
    ∧ (∀ (R : Type) (v : R), pool_worker_job false (Except.ok v) = (none, some v))
    ∧ (∀ (R : Type) (e : exc),
        pool_worker_job false (Except.error e : Except exc R) = (some e, none))
    ∧ (∀ (R : Type) (f : Except exc R),
        pool_await_resume (pool_worker_job true f).1 (pool_worker_job true f).2
          = .rethrown (exc.sys cancelled_ec))
    ∧ (∀ (R : Type) (v : R),
        pool_await_resume (pool_worker_job false (Except.ok v)).1
          (pool_worker_job false (Except.ok v)).2 = .returned v)
    ∧ (∀ (R : Type) (e : exc),
        pool_await_resume (pool_worker_job false (Except.error e : Except exc R)).1
          (pool_worker_job false (Except.error e : Except exc R)).2 = .rethrown e) := by
  refine ⟨?_, ?_, ?_, ?_, ?_, ?_, ?_⟩ <;> intros <;> rfl

/-- C9. The network-operation awaitable's resume decides in fixed priority
order: observed cancellation throws a canceled failure; else a captured
failure is rethrown; else a non-ok reactor code throws a system failure with
that code; else the stored value (or void) is returned. -/
theorem asio_resume_priority_order :
    (∀ (T : Type) (ex : Option exc) (res : asio_result T),
        asio_await_resume true ex res = .thrown (exc.sys cancelled_ec))
    ∧ (∀ (T : Type) (e : exc) (res : asio_result T),
        asio_await_resume false (some e) res = .thrown e)
    ∧ (∀ (T : Type) (ec : Nat) (v : Option T), ec ≠ 0 →
        asio_await_resume false none (⟨ec, v⟩ : asio_result T) = .thrown (exc.sys ec))
    ∧ (∀ (T : Type) (v : T),
        asio_await_resume false none (⟨0, some v⟩ : asio_result T) = .returned v)
    ∧ (∀ (T : Type) (ec : Nat) (v : T), ec ≠ 0 →
        asio_await_resume false none (asio_on_complete ec v) = .thrown (exc.sys ec))
    ∧ (∀ (T : Type) (v : T),
        asio_await_resume false none (asio_on_complete 0 v) = .returned v)
    ∧ (∀ (ex : Option exc) (ec : Nat),
        asio_await_resume_void true ex ec = .thrown (exc.sys cancelled_ec))
    ∧ (∀ (e : exc) (ec : Nat), asio_await_resume_void false (some e) ec = .thrown e)
    ∧ (∀ ec : Nat, ec ≠ 0 → asio_await_resume_void false none ec = .thrown (exc.sys ec))
    ∧ asio_await_resume_void false none 0 = .returned () := by
  refine ⟨?_, ?_, ?_, ?_, ?_, ?_, ?_, ?_, ?_, rfl⟩
  · intro T ex res
    rfl
  · intro T e res
    rfl
  · intro T ec v hne
    cases ec with
    | zero => exact absurd rfl hne
    | succ n => rfl
  · intro T v
    rfl
  · intro T ec v hne
    cases ec with
    | zero => exact absurd rfl hne
    | succ n => rfl
  · intro T v
    rfl
  · intro ex ec
    rfl
  · intro e ec
    rfl
  · intro ec hne
    cases ec with
    | zero => exact absurd rfl hne
    | succ n => rfl

/-- Witness for C9: reactor code 7 surfaces as a thrown system failure with
code 7, for a value operation and for a void operation. -/
theorem asio_resume_priority_order_witness :
    asio_await_resume false none (⟨7, none⟩ : asio_result Nat) = .thrown (exc.sys 7)
    ∧ asio_await_resume_void false none 7 = .thrown (exc.sys 7) :=
  ⟨asio_resume_priority_order.2.2.1 Nat 7 none (by decide),
   asio_resume_priority_order.2.2.2.2.2.2.2.2.1 7 (by decide)⟩

/-- C10. Move-assigning task b into a distinct task a first destroys the
frame a owns (if any), then transfers b's handle to a and leaves b empty;
self-move-assignment changes nothing. -/
theorem move_assign_destroys_then_transfers (a b : task_obj) (w : world) :
    (task_obj.move_assign a b w).1.h_ = b.h_
    ∧ (task_obj.move_assign a b w).2.1.valid = false
    ∧ (∀ ha : Nat, a.h_ = some ha →
        (task_obj.move_assign a b w).2.2.alive = w.alive.erase ha)
    ∧ (a.h_ = none → (task_obj.move_assign a b w).2.2.alive = w.alive)
    ∧ (task_obj.move_assign a b w).2.2.promiseOf = w.promiseOf
    ∧ (task_obj.move_assign a b w).2.2.sched_q = w.sched_q
    ∧ task_obj.move_assign_self a w = (a, w) := by
  refine ⟨rfl, rfl, ?_, ?_, ?_, ?_, rfl⟩
  · intro ha hha
    simp [task_obj.move_assign, task_obj.destroy, hha]
  · intro hn
    simp [task_obj.move_assign, task_obj.destroy, hn]
  · cases hh : a.h_ <;> simp [task_obj.move_assign, task_obj.destroy, hh]
  · cases hh : a.h_ <;> simp [task_obj.move_assign, task_obj.destroy, hh]

/-- Witness for C10: assigning the task owning frame 2 into the task owning
frame 1 destroys frame 1, transfers frame 2, empties the source. -/
theorem move_assign_destroys_then_transfers_witness :
    (task_obj.move_assign ⟨some 1⟩ ⟨some 2⟩ sample_world).1.h_ = some 2
    ∧ (task_obj.move_assign ⟨some 1⟩ ⟨some 2⟩ sample_world).2.1.valid = false
    ∧ (task_obj.move_assign ⟨some 1⟩ ⟨some 2⟩ sample_world).2.2.alive
        = sample_world.alive.erase 1
    ∧ task_obj.move_assign_self ⟨some 1⟩ sample_world = (⟨some 1⟩, sample_world) :=
  ⟨(move_assign_destroys_then_transfers ⟨some 1⟩ ⟨some 2⟩ sample_world).1,
   (move_assign_destroys_then_transfers ⟨some 1⟩ ⟨some 2⟩ sample_world).2.1,
   (move_assign_destroys_then_transfers ⟨some 1⟩ ⟨some 2⟩ sample_world).2.2.1 1 rfl,
   (move_assign_destroys_then_transfers ⟨some 1⟩ ⟨some 2⟩ sample_world).2.2.2.2.2.2⟩

end Cnerium
